import Mathlib

/-
Verification of the Wiki_Scraper repository (src/src/wiki_scraper.py,
src/src/models.py, src/src/exporters.py) against its natural-language
specification.  The Python code is shallowly embedded: dictionaries become
association lists (first-match lookup, which agrees with Python dicts since
parsed dictionaries have unique keys), Python strings become Lean `String`s,
the HTTP transport and HTML parser (external collaborators per the spec) are
abstracted into oracles that deliver the already-located link elements and
infobox rows of each fetched page, and the unbounded `while True` pagination
loop becomes a fuel-indexed recursion (`none` = the loop has not returned
within the given number of fetches).
-/

namespace WikiScraper

/-! ## String helpers mirroring the Python primitives used by the scraper -/

/-- Bool-valued infix test on character lists: `isInfixB t s` is `true` iff
`t` occurs consecutively somewhere in `s`.  Models Python's `t in s`. -/
def isInfixB (t : List Char) : List Char → Bool
  | [] => t.isEmpty
  | c :: cs => t.isPrefixOf (c :: cs) || isInfixB t cs

/-- Python's `pat in s` substring test. -/
def strContains (s pat : String) : Bool :=
  isInfixB pat.data s.data

/-- Python's `s.startswith(p)`. -/
def strStarts (s p : String) : Bool :=
  p.data.isPrefixOf s.data

/-- Python's `s.lower()` (ASCII case folding, which covers every string the
scraper compares: the token tables are ASCII). -/
def lowerStr (s : String) : String :=
  ⟨s.data.map Char.toLower⟩

/-- Python's `s.split(sep)` for a one-character separator, on character
lists.  Never returns `[]`; splitting `""` gives `[[]]`, and a trailing
separator yields a trailing empty segment, exactly as in Python. -/
def splitOnChar (sep : Char) : List Char → List (List Char)
  | [] => [[]]
  | c :: cs =>
      match splitOnChar sep cs with
      | [] => [[]]
      | g :: gs => if c = sep then [] :: g :: gs else (c :: g) :: gs

/-- Python's `s.replace(a, b)` for one-character pattern and replacement. -/
def replaceChar (a b : Char) (s : String) : String :=
  ⟨s.data.map (fun c => if c = a then b else c)⟩

/-! ## Data model (wiki_scraper.py lines 23-88, models.py)

The Python code distinguishes `Weapon` and `Equipment` by class; the
embedding carries the class tag as an `Archetype` field on one `Item`
structure. -/

inductive Archetype where
  | weapon
  | equipment
deriving DecidableEq, Repr

structure Item where
  name : String
  archetype : Archetype
  attributes : List (String × String)
deriving DecidableEq, Repr

/-- Python `Item.to_dict` builds `{"Name": self.name, **self.attributes}`:
its lookup returns `attributes[k]` when `k` is an attribute key (an
attribute named `"Name"` overrides the item name) and `self.name` for
`"Name"` otherwise; its key set is the attribute keys plus `"Name"`.  The
association list `attributes ++ [("Name", name)]` with first-match lookup
has exactly these lookup semantics and key set. -/
def Item.to_dict (it : Item) : List (String × String) :=
  it.attributes ++ [("Name", it.name)]

/-- ItemCategories.WEAPONS (wiki_scraper.py lines 25-33), in Python dict
insertion order, which `next(... for k, v in WEAPONS.items() ...)` scans. -/
def WEAPONS : List (String × String) :=
  [("1h", "1H_Weapons"), ("2h", "2H_Weapons"), ("piercing", "Piercing"),
   ("blunt", "Blunt"), ("slashing", "Slashing"), ("bow", "Bows"),
   ("throwing", "Throwing")]

/-- ItemCategories.EQUIPMENT (wiki_scraper.py lines 35-51). -/
def EQUIPMENT : List (String × String) :=
  [("arms", "Arms"), ("back", "Back"), ("chest", "Chest"), ("ear", "Ears"),
   ("face", "Face"), ("feet", "Feet"), ("fingers", "Fingers"),
   ("hands", "Hands"), ("head", "Head"), ("legs", "Legs"), ("neck", "Neck"),
   ("shield", "Shields"), ("shoulders", "Shoulders"), ("waist", "Waist"),
   ("wrist", "Wrist")]

/-- Weapon.FIELDS as defined in wiki_scraper.py lines 68-72 (the list the
batch writer `_export_items` uses). -/
def weaponFields : List String :=
  ["Name", "Type", "Damage", "Delay", "Classes", "Races",
   "Skill", "Effect", "WT", "Size", "Magic Item",
   "Lore Item", "No Drop", "30d Avg", "90d Avg", "All Time Avg"]

/-- Equipment.FIELDS as defined in wiki_scraper.py lines 80-84. -/
def equipmentFields : List String :=
  ["Name", "Type", "AC", "Stats", "Classes", "Races",
   "Effect", "WT", "Size", "Magic Item", "Lore Item",
   "No Drop", "30d Avg", "90d Avg", "All Time Avg"]

/-- Schema the batch writer selects for an archetype
(`Weapon.FIELDS if isinstance(..., Weapon) else Equipment.FIELDS`). -/
def fieldsFor : Archetype → List String
  | .weapon => weaponFields
  | .equipment => equipmentFields

/-- Weapon.FIELDS as defined in models.py lines 13-31. -/
def modelsWeaponFields : List String :=
  ["Name", "Type", "Damage", "Delay", "Stats", "Classes", "Races",
   "Effect", "WT", "Size", "Slot", "Magic Item", "Lore Item",
   "No Drop", "30d Avg", "90d Avg", "All Time Avg"]

/-- Equipment.FIELDS as defined in models.py lines 34-51. -/
def modelsEquipmentFields : List String :=
  ["Name", "Type", "Slot", "AC", "Stats", "Classes", "Races",
   "Effect", "WT", "Size", "Magic Item", "Lore Item",
   "No Drop", "30d Avg", "90d Avg", "All Time Avg"]

/-- Schema `item.__class__.FIELDS` resolves to when `CSVExporter.export_item`
(exporters.py) is handed an item built from the classes of models.py. -/
def modelsFields : Archetype → List String
  | .weapon => modelsWeaponFields
  | .equipment => modelsEquipmentFields

/-! ## Classification (`ItemScraper._determine_item_type`, lines 221-228) -/

/-- Weapon-type token list of `_determine_item_type` (line 227). -/
def weapon_types : List String :=
  ["1h", "2h", "bow", "throwing", "piercing", "blunt", "slashing"]

/-- `_determine_item_type` (wiki_scraper.py lines 221-228): an empty or
missing mapping classifies as `"equipment"`; otherwise the lower-cased
`Type` value (defaulting to `""`) is tested for containment of any weapon
token. -/
def determine_item_type (item_data : List (String × String)) : String :=
  if item_data.isEmpty then "equipment"
  else
    let item_type := lowerStr ((item_data.lookup "Type").getD "")
    if weapon_types.any (fun t => strContains item_type t) then "weapon"
    else "equipment"

/-- Record construction in `scrape_item_page` (lines 189-191):
`Weapon(name) if item_type == "weapon" else Equipment(name)` followed by
`item.attributes = item_data`. -/
def classify (name : String) (item_data : List (String × String)) : Item :=
  { name := name
    archetype :=
      if determine_item_type item_data = "weapon" then .weapon else .equipment
    attributes := item_data }

/-! ## Destination resolution (`ItemScraper._get_category_path`, lines 109-121)

`pathlib` paths compare componentwise, so the returned
`base_dir / f"{filename}.csv"` is embedded as an (area, filename) pair. -/

structure OutPath where
  area : String
  filename : String
deriving DecidableEq, Repr

/-- `_get_category_path`: weapons match the first `WEAPONS` key contained in
the lower-cased `Type` attribute (default bucket `misc`); equipment does an
exact lookup of the lower-cased `Slot` attribute in `EQUIPMENT` (default
`misc`). -/
def get_category_path (it : Item) : OutPath :=
  match it.archetype with
  | .weapon =>
      let type_key := lowerStr ((it.attributes.lookup "Type").getD "")
      let filename :=
        ((WEAPONS.find? (fun kv => strContains type_key kv.1)).map
          (fun kv => kv.2)).getD "misc"
      ⟨"weapons", filename ++ ".csv"⟩
  | .equipment =>
      let slot := lowerStr ((it.attributes.lookup "Slot").getD "")
      ⟨"equipment", ((EQUIPMENT.lookup slot).getD "misc") ++ ".csv"⟩

/-! ## Claims C1 and C3: classification and weapon-bucket resolution -/

/-- Helper: a successful association-list lookup forces a nonempty list. -/
theorem lookup_some_ne_nil {d : List (String × String)} {k v : String}
    (h : d.lookup k = some v) : d.isEmpty = false := by
  cases d with
  | nil => simp [List.lookup] at h
  | cons kv rest => rfl

/-- C1 (counterexample): for attributes `{"Type": "1H Slashing", "Damage": "7"}`
the classifier does yield archetype Weapon, but `_get_category_path` resolves
the destination to `weapons/1H_Weapons.csv` — the token `"1h"` is the first
entry of `ItemCategories.WEAPONS` contained in `"1h slashing"` — and not to
`weapons/Slashing.csv` as the claim states. -/
theorem C1_counterexample :
    determine_item_type [("Type", "1H Slashing"), ("Damage", "7")] = "weapon" ∧
    get_category_path
        (classify "Example Sword" [("Type", "1H Slashing"), ("Damage", "7")]) =
      ⟨"weapons", "1H_Weapons.csv"⟩ ∧
    (⟨"weapons", "1H_Weapons.csv"⟩ : OutPath) ≠ ⟨"weapons", "Slashing.csv"⟩ := by
  decide

/-- C1 (amended): for a record classified from attributes
`{"Type": "1H Slashing", "Damage": "7"}` the classifier yields archetype
Weapon and the exporter resolves its destination to the `1H_Weapons` bucket
(file `1H_Weapons.csv` under the weapons area, because `"1h"` is the first
matching token in the weapon table's order), not to `misc`. -/
theorem C1_amended :
    (classify "Example Sword" [("Type", "1H Slashing"), ("Damage", "7")]).archetype =
      Archetype.weapon ∧
    get_category_path
        (classify "Example Sword" [("Type", "1H Slashing"), ("Damage", "7")]) =
      ⟨"weapons", "1H_Weapons.csv"⟩ ∧
    get_category_path
        (classify "Example Sword" [("Type", "1H Slashing"), ("Damage", "7")]) ≠
      ⟨"weapons", "misc.csv"⟩ := by
  decide

/-- C3: for every attribute mapping, if the `Type` attribute is absent the
classifier returns Equipment; otherwise it returns Weapon exactly when the
case-folded `Type` value contains one of the tokens
`1h, 2h, bow, throwing, piercing, blunt, slashing` as a substring, and
Equipment when it contains none of them. -/
theorem C3_classifier (d : List (String × String)) :
    (d.lookup "Type" = none → determine_item_type d = "equipment") ∧
    (∀ v, d.lookup "Type" = some v →
      (determine_item_type d = "weapon" ↔
        weapon_types.any (fun t => strContains (lowerStr v) t) = true) ∧
      (weapon_types.any (fun t => strContains (lowerStr v) t) = false →
        determine_item_type d = "equipment")) := by
  constructor
  · intro h
    unfold determine_item_type
    rw [h]
    cases hd : d.isEmpty
    · simp only [hd]; decide
    · simp only [hd]; decide
  · intro v hv
    have hd : d.isEmpty = false := lookup_some_ne_nil hv
    unfold determine_item_type
    rw [hv, hd]
    simp only [Bool.false_eq_true, if_false, Option.getD_some]
    constructor
    · by_cases hany : (weapon_types.any fun t => strContains (lowerStr v) t) = true
      · simp only [hany]; decide
      · simp only [Bool.not_eq_true] at hany
        simp only [hany]; decide
    · intro hany
      simp only [hany]; decide

/-- C3 (witness): concrete instances — a mapping without `Type` classifies as
equipment, and `Type = "1H Slashing"` classifies as weapon. -/
theorem C3_classifier_witness :
    determine_item_type [("Damage", "7")] = "equipment" ∧
    determine_item_type [("Type", "1H Slashing")] = "weapon" :=
  ⟨(C3_classifier [("Damage", "7")]).1 (by decide),
   ((C3_classifier [("Type", "1H Slashing")]).2 "1H Slashing" (by decide)).1.mpr
     (by decide)⟩

/-! ## Pagination (`ItemScraper._extract_category_items`, lines 230-281)

The HTTP transport and BeautifulSoup are external collaborators: a fetched
listing page is abstracted to its status code and, when the
`mw-content-text` container is present, the list of hyperlink elements
(`href`, display text) found inside it.  The loop's successive fetches are
driven by an oracle indexed by fetch number (the code varies only the
`?pagefrom=` cursor of the same category URL, so the response sequence is a
function of the fetch index). -/

structure Link where
  href : String
  text : String
deriving DecidableEq, Repr

structure LPage where
  status : Nat
  content : Option (List Link)
deriving Repr

/-- Namespace markers of the link filter (wiki_scraper.py lines 256-257).
Note the first marker is `"/Category:"`, with a leading slash. -/
def nsMarkers : List String :=
  ["/Category:", "Special:", "File:", "Discussion:",
   "Help:", "User:", "Template:", "Project:"]

/-- The filter `any(x in href for x in [...])` of line 256. -/
def nsSkip (href : String) : Bool :=
  nsMarkers.any (fun m => strContains href m)

/-- A link survives the namespace filter and is site-relative
(lines 256-260). -/
def isCandidate (l : Link) : Bool :=
  !nsSkip l.href && strStarts l.href "/"

/-- The URLs a page's link list can contribute: surviving site-relative
links resolved against the base URL (line 261). -/
def linkCands (base : String) (ls : List Link) : List String :=
  (ls.filter isCandidate).map (fun l => base ++ l.href)

/-- URLs a fetched listing page can contribute (empty when the
`mw-content-text` container is missing). -/
def cands (base : String) (pg : LPage) : List String :=
  match pg.content with
  | none => []
  | some ls => linkCands base ls

/-- The `for item in items` body of lines 254-266: accumulates the link set
(`links`, dedup by membership), the `found_items` flag and
`last_item_this_page` (display text of the last newly added link). -/
def processLinks (base : String) (links : List String) (found : Bool)
    (last : Option String) : List Link → List String × Bool × Option String
  | [] => (links, found, last)
  | l :: rest =>
      if nsSkip l.href then processLinks base links found last rest
      else if strStarts l.href "/" then
        if links.contains (base ++ l.href) then processLinks base links found last rest
        else processLinks base (links ++ [base ++ l.href]) true (some l.text) rest
      else processLinks base links found last rest

/-- The `while True` loop of lines 236-275 with explicit fuel: `none` means
the loop has not returned within `fuel` fetches.  Breaks: non-200 status
(line 243), missing content container (line 248), no newly found link
(line 269), empty/absent cursor (line 273); otherwise the loop continues
with the next fetch after updating `last_item`. -/
def pagLoop (base : String) (pages : Nat → LPage) :
    Nat → Nat → List String → Option String → Option (List String)
  | 0, _, _, _ => none
  | fuel + 1, i, links, _cursor =>
      if (pages i).status ≠ 200 then some links
      else
        match (pages i).content with
        | none => some links
        | some ls =>
            if (processLinks base links false none ls).2.1 then
              match (processLinks base links false none ls).2.2 with
              | none => some (processLinks base links false none ls).1
              | some t =>
                  if t = "" then some (processLinks base links false none ls).1
                  else
                    pagLoop base pages fuel (i + 1)
                      (processLinks base links false none ls).1 (some t)
            else some (processLinks base links false none ls).1

/-- `_extract_category_items`: run the pagination loop from the initial
state (`links = set()`, `last_item = None`). -/
def extract_category_items (base : String) (pages : Nat → LPage)
    (fuel : Nat) : Option (List String) :=
  pagLoop base pages fuel 0 [] none

/-! ### Lemmas about one page's link scan -/

/-- Membership in the accumulated link set after scanning a page: exactly
the previous members plus the page's candidate URLs. -/
theorem processLinks_mem (base : String) (ls : List Link) :
    ∀ (links : List String) (found : Bool) (last : Option String) (x : String),
      x ∈ (processLinks base links found last ls).1 ↔
        x ∈ links ∨ x ∈ linkCands base ls := by
  induction ls with
  | nil =>
      intro links found last x
      simp [processLinks, linkCands]
  | cons l rest ih =>
      intro links found last x
      by_cases hns : nsSkip l.href
      · have hcand : isCandidate l = false := by
          simp [isCandidate, hns]
        simp only [processLinks, if_pos hns]
        rw [ih]
        simp [linkCands, List.filter_cons, hcand]
      · by_cases hrel : strStarts l.href "/"
        · have hcand : isCandidate l = true := by
            simp [isCandidate, hns, hrel]
          have hc : linkCands base (l :: rest) =
              (base ++ l.href) :: linkCands base rest := by
            simp [linkCands, List.filter_cons, hcand]
          by_cases hmem : links.contains (base ++ l.href)
          · simp only [processLinks, if_neg hns, if_pos hrel, if_pos hmem]
            rw [ih, hc]
            have : base ++ l.href ∈ links := List.elem_iff.mp hmem
            simp only [List.mem_cons]
            constructor
            · rintro (h | h)
              · exact Or.inl h
              · exact Or.inr (Or.inr h)
            · rintro (h | h | h)
              · exact Or.inl h
              · exact Or.inl (h ▸ this)
              · exact Or.inr h
          · simp only [processLinks, if_neg hns, if_pos hrel, if_neg hmem]
            rw [ih, hc]
            simp only [List.mem_append, List.mem_singleton, List.mem_cons]
            tauto
        · have hcand : isCandidate l = false := by
            simp [isCandidate, hns, hrel]
          simp only [processLinks, if_neg hns, if_neg hrel]
          rw [ih]
          simp [linkCands, List.filter_cons, hcand]

/-- When every candidate URL of a page is already known, the scan changes
nothing: no link is added, `found_items` stays as it was, and the cursor
candidate is untouched. -/
theorem processLinks_stall (base : String) (ls : List Link) :
    ∀ (links : List String) (found : Bool) (last : Option String),
      (∀ u ∈ linkCands base ls, u ∈ links) →
      processLinks base links found last ls = (links, found, last) := by
  induction ls with
  | nil => intro links found last _; rfl
  | cons l rest ih =>
      intro links found last hsub
      by_cases hns : nsSkip l.href
      · have hcand : isCandidate l = false := by simp [isCandidate, hns]
        simp only [processLinks, if_pos hns]
        exact ih links found last (by
          intro u hu
          exact hsub u (by simp [linkCands, List.filter_cons, hcand] at hu ⊢; exact hu))
      · by_cases hrel : strStarts l.href "/"
        · have hcand : isCandidate l = true := by simp [isCandidate, hns, hrel]
          have hc : linkCands base (l :: rest) =
              (base ++ l.href) :: linkCands base rest := by
            simp [linkCands, List.filter_cons, hcand]
          have hmem : links.contains (base ++ l.href) = true := by
            apply List.elem_iff.mpr
            exact hsub _ (by rw [hc]; exact List.mem_cons_self _ _)
          simp only [processLinks, if_neg hns, if_pos hrel, if_pos hmem]
          exact ih links found last (by
            intro u hu
            exact hsub u (by rw [hc]; exact List.mem_cons_of_mem _ hu))
        · have hcand : isCandidate l = false := by simp [isCandidate, hns, hrel]
          simp only [processLinks, if_neg hns, if_neg hrel]
          exact ih links found last (by
            intro u hu
            exact hsub u (by simp [linkCands, List.filter_cons, hcand] at hu ⊢; exact hu))

/-! ### Lemmas about the pagination loop -/

/-- Every URL in a successful pagination result was either already in the
accumulated set or is a candidate URL of one of the fetched pages. -/
theorem pagLoop_mem (base : String) (pages : Nat → LPage) :
    ∀ (fuel i : Nat) (links : List String) (cursor : Option String)
      (res : List String),
      pagLoop base pages fuel i links cursor = some res →
      ∀ u ∈ res, u ∈ links ∨ ∃ j, u ∈ cands base (pages j) := by
  intro fuel
  induction fuel with
  | zero =>
      intro i links cursor res h
      simp [pagLoop] at h
  | succ fuel ih =>
      intro i links cursor res h u hu
      simp only [pagLoop] at h
      split at h
      · cases h
        exact Or.inl hu
      · split at h
        · cases h
          exact Or.inl hu
        · rename_i ls hceq
          have hcs : linkCands base ls = cands base (pages i) := by
            simp [cands, hceq]
          split at h
          · split at h
            · cases h
              rcases (processLinks_mem base ls links false none u).mp hu with hl | hc
              · exact Or.inl hl
              · exact Or.inr ⟨i, hcs ▸ hc⟩
            · rename_i t hteq
              split at h
              · cases h
                rcases (processLinks_mem base ls links false none u).mp hu with hl | hc
                · exact Or.inl hl
                · exact Or.inr ⟨i, hcs ▸ hc⟩
              · rcases ih (i + 1) _ (some t) res h u hu with hl | hj
                · rcases (processLinks_mem base ls links false none u).mp hl with hl' | hc
                  · exact Or.inl hl'
                  · exact Or.inr ⟨i, hcs ▸ hc⟩
                · exact Or.inr hj
          · cases h
            rcases (processLinks_mem base ls links false none u).mp hu with hl | hc
            · exact Or.inl hl
            · exact Or.inr ⟨i, hcs ▸ hc⟩

/-- Helper rewriting step for the union-of-candidates loop invariant. -/
theorem links_inv_step (base : String) (pages : Nat → LPage) (i : Nat)
    (links : List String) (ls : List Link)
    (hceq : (pages i).content = some ls)
    (hinv : ∀ x, x ∈ links ↔ ∃ j < i, x ∈ cands base (pages j)) :
    ∀ x, x ∈ (processLinks base links false none ls).1 ↔
      ∃ j < i + 1, x ∈ cands base (pages j) := by
  intro x
  rw [processLinks_mem base ls links false none x, hinv x]
  constructor
  · rintro (⟨j, hj, hx⟩ | hx)
    · exact ⟨j, by omega, hx⟩
    · exact ⟨i, by omega, by simp [cands, hceq]; exact hx⟩
  · rintro ⟨j, hj, hx⟩
    rcases Nat.lt_succ_iff_lt_or_eq.mp hj with hj' | hj'
    · exact Or.inl ⟨j, hj', hx⟩
    · subst hj'
      right
      simp [cands, hceq] at hx
      exact hx

/-- Termination core: if the `n`-th response has a non-success status, lacks
the content container, or contributes only URLs already contributed by
earlier fetches, then from any loop state at fetch index `i ≤ n` whose
accumulated set is exactly the union of candidates of pages before `i`, the
loop returns within `n - i + 1` further fetches. -/
theorem pagLoop_term (base : String) (pages : Nat → LPage) (n : Nat)
    (H : (pages n).status ≠ 200 ∨ (pages n).content = none ∨
      ∀ u ∈ cands base (pages n), ∃ j < n, u ∈ cands base (pages j)) :
    ∀ (d i : Nat) (links : List String) (cursor : Option String),
      i + d = n →
      (∀ x, x ∈ links ↔ ∃ j < i, x ∈ cands base (pages j)) →
      (pagLoop base pages (d + 1) i links cursor).isSome = true := by
  intro d
  induction d with
  | zero =>
      intro i links cursor hi hinv
      have hin : i = n := by omega
      subst hin
      simp only [pagLoop]
      split
      · rfl
      · split
        · rfl
        · rename_i hst hscr ls hceq
          have hall : ∀ u ∈ linkCands base ls, u ∈ links := by
            intro u hu
            have hu' : u ∈ cands base (pages i) := by
              simp [cands, hceq]
              exact hu
            rcases H with h1 | h2 | h3
            · exact absurd h1 hst
            · rw [h2] at hceq; cases hceq
            · exact (hinv u).mpr (h3 u hu')
          rw [processLinks_stall base ls links false none hall]
          simp
  | succ d ih =>
      intro i links cursor hi hinv
      simp only [pagLoop]
      split
      · rfl
      · split
        · rfl
        · rename_i hscr ls hceq
          split
          · split
            · rfl
            · rename_i t hteq
              split
              · rfl
              · exact ih (i + 1) _ (some t) (by omega)
                  (links_inv_step base pages i links ls hceq hinv)
          · rfl

/-- Unfolding lemma for one successful fetch of the pagination loop. -/
theorem pagLoop_succ_content (base : String) (pages : Nat → LPage)
    (fuel i : Nat) (links : List String) (cursor : Option String)
    (ls : List Link) (hok : (pages i).status = 200)
    (hceq : (pages i).content = some ls) :
    pagLoop base pages (fuel + 1) i links cursor =
      (if (processLinks base links false none ls).2.1 = true then
        match (processLinks base links false none ls).2.2 with
        | none => some (processLinks base links false none ls).1
        | some t =>
            if t = "" then some (processLinks base links false none ls).1
            else
              pagLoop base pages fuel (i + 1)
                (processLinks base links false none ls).1 (some t)
      else some (processLinks base links false none ls).1) := by
  simp only [pagLoop]
  rw [if_neg (by simp [hok]), hceq]

/-! ## Claims C5, C6, C8: pagination behaviour -/

/-- C5: pagination terminates.  First conjunct: if the `n`-th listing
response has a non-success status, lacks the content container, or offers
only URLs already offered by earlier responses (so the `n`-th fetch, if
reached, discovers nothing new), then the paginator started from the empty
state returns within `n + 1` fetches.  Second conjunct: a fetch whose
candidate links are all already known never fetches another page — it
returns the accumulated set at once, regardless of any further pages. -/
theorem C5_pagination_terminates :
    (∀ (base : String) (pages : Nat → LPage) (n : Nat),
        ((pages n).status ≠ 200 ∨ (pages n).content = none ∨
          ∀ u ∈ cands base (pages n), ∃ j < n, u ∈ cands base (pages j)) →
        (extract_category_items base pages (n + 1)).isSome = true) ∧
    (∀ (base : String) (pages : Nat → LPage) (fuel i : Nat)
        (links : List String) (cursor : Option String) (ls : List Link),
        (pages i).content = some ls →
        (∀ u ∈ linkCands base ls, u ∈ links) →
        pagLoop base pages (fuel + 1) i links cursor = some links) := by
  constructor
  · intro base pages n H
    unfold extract_category_items
    exact pagLoop_term base pages n H n 0 [] none (by omega) (by simp)
  · intro base pages fuel i links cursor ls hceq hsub
    by_cases hst : (pages i).status ≠ 200
    · simp only [pagLoop]
      rw [if_pos hst]
    · rw [pagLoop_succ_content base pages fuel i links cursor ls
        (by omega) hceq]
      rw [processLinks_stall base ls links false none hsub]
      rfl

/-- C5 (witness): a first page with an empty link list terminates the crawl
after one fetch, and a page whose sole candidate is already accumulated
returns the accumulated set at once. -/
theorem C5_pagination_terminates_witness :
    (∀ u ∈ cands "b" ⟨200, some []⟩, ∃ j < 0, u ∈ cands "b" ⟨200, some []⟩) ∧
    (extract_category_items "b" (fun _ => ⟨200, some []⟩) 1).isSome = true ∧
    pagLoop "b" (fun _ => ⟨200, some [⟨"/A", "A"⟩]⟩) 1 0 ["b/A"] none =
      some ["b/A"] :=
  ⟨by decide,
   C5_pagination_terminates.1 "b" (fun _ => ⟨200, some []⟩) 0
     (Or.inr (Or.inr (by decide))),
   C5_pagination_terminates.2 "b" (fun _ => ⟨200, some [⟨"/A", "A"⟩]⟩) 0 0
     ["b/A"] none [⟨"/A", "A"⟩] rfl (by decide)⟩

/-- C6: a fetch that discovers at least one new link (`found_items = true`)
whose last newly discovered link has empty display text makes the paginator
return the accumulated URL set immediately instead of fetching another
page. -/
theorem C6_empty_cursor_done (base : String) (pages : Nat → LPage)
    (fuel i : Nat) (links : List String) (cursor : Option String)
    (ls : List Link) (links' : List String)
    (hok : (pages i).status = 200)
    (hceq : (pages i).content = some ls)
    (hscan : processLinks base links false none ls = (links', true, some "")) :
    pagLoop base pages (fuel + 1) i links cursor = some links' := by
  rw [pagLoop_succ_content base pages fuel i links cursor ls hok hceq, hscan]
  rfl

/-- C6 (witness): one new link `/A` with empty display text — the paginator
returns `{b/A}` without a second fetch (any fuel at least one works). -/
theorem C6_empty_cursor_done_witness :
    processLinks "b" [] false none [⟨"/A", ""⟩] = (["b/A"], true, some "") ∧
    pagLoop "b" (fun _ => ⟨200, some [⟨"/A", ""⟩]⟩) 5 0 [] none =
      some ["b/A"] :=
  ⟨by decide,
   C6_empty_cursor_done "b" (fun _ => ⟨200, some [⟨"/A", ""⟩]⟩) 4 0 [] none
     [⟨"/A", ""⟩] ["b/A"] rfl rfl (by decide)⟩

/-- C8 (counterexample): the code's first namespace marker is
`"/Category:"`, with a leading slash, not `"Category:"`.  The link target
`/ItemCategory:Foo` contains the marker `Category:` (at an interior
position, not preceded by a slash), yet the paginator adds it to its result
set, so a hyperlink whose path contains `Category:` is not always
discarded. -/
theorem C8_counterexample :
    strContains "/ItemCategory:Foo" "Category:" = true ∧
    extract_category_items "https://wiki.project1999.com"
        (fun _ => ⟨200, some [⟨"/ItemCategory:Foo", "Foo"⟩]⟩) 2 =
      some ["https://wiki.project1999.com/ItemCategory:Foo"] := by
  decide

/-- C8 (amended): every hyperlink whose target contains one of the code's
markers `/Category:`, `Special:`, `File:`, `Discussion:`, `Help:`, `User:`,
`Template:`, `Project:` at any position is discarded and never enters the
paginator's result set (a bare `Category:` marker is filtered only when
preceded by a slash). -/
theorem C8_namespace_filter (base : String) (pages : Nat → LPage)
    (fuel : Nat) (res : List String) (href : String)
    (hrun : extract_category_items base pages fuel = some res)
    (hmark : nsSkip href = true) :
    (base ++ href) ∉ res := by
  intro hin
  rcases pagLoop_mem base pages fuel 0 [] none res hrun _ hin with hl | ⟨j, hj⟩
  · simp at hl
  · rcases hceq : (pages j).content with _ | ls
    · simp [cands, hceq] at hj
    · simp only [cands, hceq] at hj
      rcases List.mem_map.mp hj with ⟨l, hlmem, hle⟩
      have hfil := List.mem_filter.mp hlmem
      have hcand : isCandidate l = true := hfil.2
      have hns : nsSkip l.href = false := by
        simp [isCandidate] at hcand
        exact hcand.1
      have hhref : l.href = href := by
        have hdata : base.data ++ l.href.data = base.data ++ href.data :=
          congrArg String.data hle
        exact String.ext (List.append_cancel_left hdata)
      rw [hhref] at hns
      rw [hns] at hmark
      cases hmark

/-- C8 (witness): a `/Special:Search` link is dropped while `/Item_A`
survives; the resolved URL of the marked link is not in the result. -/
theorem C8_namespace_filter_witness :
    nsSkip "/Special:Search" = true ∧
    ("b" ++ "/Special:Search") ∉ ["b/Item_A"] :=
  ⟨by decide,
   C8_namespace_filter "b"
     (fun _ => ⟨200, some [⟨"/Special:Search", "s"⟩, ⟨"/Item_A", "A"⟩]⟩) 2
     ["b/Item_A"] "/Special:Search" (by decide) (by decide)⟩

/-! ## Batch export (`ItemScraper._export_items`, lines 123-144) and the
single-record append primitive (`CSVExporter.export_item`, exporters.py)

`csv.DictWriter` is embedded faithfully: its default `extrasaction='raise'`
makes `writerow` raise `ValueError` when the row dictionary has a key not
in `fieldnames`, and its default `restval=''` renders fields missing from
the dictionary as empty strings.  A raised error aborts the batch write,
modelled by `Except.error`. -/

/-- `csv.DictWriter.writerow`: error when the dictionary holds a key outside
the schema, otherwise one output cell per schema field in order, `""` for a
missing key. -/
def writerow (fields : List String) (d : List (String × String)) :
    Except Unit (List String) :=
  if d.all (fun kv => fields.contains kv.1) then
    .ok (fields.map (fun f => (d.lookup f).getD ""))
  else .error ()

/-- The successful `writerow` output for an item under a schema. -/
def rowOf (fields : List String) (it : Item) : List String :=
  fields.map (fun f => (it.to_dict.lookup f).getD "")

/-- Insert an item into the grouping dictionary of `_export_items`
(lines 128-132): append to the existing group of its file path, or start a
new group at the end (Python dict insertion order). -/
def addToGroup (gs : List (OutPath × List Item)) (p : OutPath) (it : Item) :
    List (OutPath × List Item) :=
  match gs with
  | [] => [(p, [it])]
  | (q, g) :: rest =>
      if q = p then (q, g ++ [it]) :: rest else (q, g) :: addToGroup rest p it

/-- The `categorized` dictionary of `_export_items`: items grouped by their
`_get_category_path` destination, in first-appearance order. -/
def groupByPath (items : List Item) : List (OutPath × List Item) :=
  items.foldl (fun gs it => addToGroup gs (get_category_path it) it) []

/-- Schema selection of line 136: `Weapon.FIELDS if
isinstance(category_items[0], Weapon) else Equipment.FIELDS`.  Groups built
by `groupByPath` are never empty; the `[]` case takes the `else` branch's
schema (in Python an empty group would fault on the `[0]` index, but none
is ever formed). -/
def fieldsOfGroup : List Item → List String
  | [] => equipmentFields
  | it :: _ => fieldsFor it.archetype

/-- The row-writing loop of lines 141-142; a `ValueError` from `writerow`
propagates and aborts the batch. -/
def writeRows (fields : List String) : List Item → Except Unit (List (List String))
  | [] => .ok []
  | it :: rest =>
      match writerow fields it.to_dict with
      | .error e => .error e
      | .ok row =>
          match writeRows fields rest with
          | .error e => .error e
          | .ok rows => .ok (row :: rows)

/-- One destination file's fresh content: header row then one row per
grouped item (the file is opened with mode `'w'`, a full rewrite). -/
def writeGroup (g : List Item) : Except Unit (List (List String)) :=
  match writeRows (fieldsOfGroup g) g with
  | .error e => .error e
  | .ok rows => .ok (fieldsOfGroup g :: rows)

/-- The per-group export loop of lines 135-144, producing the list of
(path, file content) pairs actually written. -/
def exportGroups : List (OutPath × List Item) →
    Except Unit (List (OutPath × List (List String)))
  | [] => .ok []
  | (p, g) :: rest =>
      match writeGroup g with
      | .error e => .error e
      | .ok content =>
          match exportGroups rest with
          | .error e => .error e
          | .ok files => .ok ((p, content) :: files)

/-- `_export_items`: group the batch, then write every group's file. -/
def export_items (items : List Item) :
    Except Unit (List (OutPath × List (List String))) :=
  exportGroups (groupByPath items)

/-- Content of path `p` among the written files, if any. -/
def lookupWritten (files : List (OutPath × List (List String)))
    (p : OutPath) : Option (List (List String)) :=
  (files.find? (fun pc => pc.1 == p)).map (fun pc => pc.2)

/-- Effect of one batch export on the output file store: every written path
holds its fresh content (mode `'w'` truncates whatever was there), every
other path is untouched. -/
def runBatchExport (store : OutPath → Option (List (List String)))
    (items : List Item) :
    Except Unit (OutPath → Option (List (List String))) :=
  match export_items items with
  | .error e => .error e
  | .ok files =>
      .ok (fun p =>
        match lookupWritten files p with
        | some c => some c
        | none => store p)

/-- `CSVExporter.export_item` (exporters.py): open in append mode (the file
is created if absent, its rows are `file`), write the header only when the
file is empty, then append one row using `item.__class__.FIELDS` — the
field lists of models.py when driven by that module's classes. -/
def export_item (file : List (List String)) (it : Item) :
    Except Unit (List (List String)) :=
  match writerow (modelsFields it.archetype) it.to_dict with
  | .error e => .error e
  | .ok row =>
      .ok ((if file.isEmpty then [modelsFields it.archetype] else file) ++ [row])

/-! ### Lemmas about grouping -/

/-- Inserting an item preserves the grouping invariant: groups are nonempty
and hold only items (satisfying `P`) whose destination is the group key. -/
theorem addToGroup_inv (P : Item → Prop) (it : Item) (hP : P it) :
    ∀ (gs : List (OutPath × List Item)),
      (∀ pg ∈ gs, pg.2 ≠ [] ∧ ∀ x ∈ pg.2, P x ∧ get_category_path x = pg.1) →
      ∀ pg ∈ addToGroup gs (get_category_path it) it,
        pg.2 ≠ [] ∧ ∀ x ∈ pg.2, P x ∧ get_category_path x = pg.1 := by
  intro gs
  induction gs with
  | nil =>
      intro _ pg hpg
      simp only [addToGroup, List.mem_singleton] at hpg
      subst hpg
      refine ⟨by simp, ?_⟩
      intro x hx
      simp only [List.mem_singleton] at hx
      subst hx
      exact ⟨hP, rfl⟩
  | cons qg rest ih =>
      intro hinv pg hpg
      obtain ⟨q, g⟩ := qg
      by_cases hq : q = get_category_path it
      · simp only [addToGroup, if_pos hq, List.mem_cons] at hpg
        rcases hpg with h1 | h2
        · subst h1
          refine ⟨by simp, ?_⟩
          intro x hx
          rcases List.mem_append.mp hx with hx1 | hx2
          · exact (hinv (q, g) (by simp)).2 x hx1
          · simp only [List.mem_singleton] at hx2
            subst hx2
            exact ⟨hP, hq.symm⟩
        · exact hinv pg (by simp [h2])
      · simp only [addToGroup, if_neg hq, List.mem_cons] at hpg
        rcases hpg with h1 | h2
        · subst h1
          exact hinv (q, g) (by simp)
        · exact ih (fun r hr => hinv r (by simp [hr])) pg h2

/-- The grouping invariant holds after folding a whole batch. -/
theorem groupBy_fold_inv (P : Item → Prop) :
    ∀ (items : List Item) (gs : List (OutPath × List Item)),
      (∀ pg ∈ gs, pg.2 ≠ [] ∧ ∀ x ∈ pg.2, P x ∧ get_category_path x = pg.1) →
      (∀ it ∈ items, P it) →
      ∀ pg ∈ items.foldl (fun gs it => addToGroup gs (get_category_path it) it) gs,
        pg.2 ≠ [] ∧ ∀ x ∈ pg.2, P x ∧ get_category_path x = pg.1 := by
  intro items
  induction items with
  | nil => intro gs hinv _ pg hpg; exact hinv pg hpg
  | cons it rest ih =>
      intro gs hinv hP pg hpg
      simp only [List.foldl_cons] at hpg
      exact ih _
        (addToGroup_inv P it (hP it (by simp)) gs hinv)
        (fun x hx => hP x (by simp [hx])) pg hpg

/-- Every group of `groupByPath` is nonempty, consists of batch items, and
is keyed by exactly those items' destination path. -/
theorem groupByPath_inv (items : List Item) :
    ∀ pg ∈ groupByPath items,
      pg.2 ≠ [] ∧ ∀ x ∈ pg.2, x ∈ items ∧ get_category_path x = pg.1 :=
  groupBy_fold_inv (fun x => x ∈ items) items [] (by simp) (fun _ h => h)

/-- Inserting an item grows the total group size by exactly one. -/
theorem addToGroup_total (p : OutPath) (it : Item) :
    ∀ gs, ((addToGroup gs p it).map (fun pg => pg.2.length)).sum =
      ((gs.map (fun pg => pg.2.length)).sum) + 1 := by
  intro gs
  induction gs with
  | nil => simp [addToGroup]
  | cons qg rest ih =>
      obtain ⟨q, g⟩ := qg
      by_cases hq : q = p
      · simp only [addToGroup, if_pos hq, List.map_cons, List.sum_cons,
          List.length_append, List.length_singleton]
        omega
      · simp only [addToGroup, if_neg hq, List.map_cons, List.sum_cons, ih]
        omega

/-- Folding a batch grows the total group size by the batch length. -/
theorem groupBy_fold_total :
    ∀ (items : List Item) (gs : List (OutPath × List Item)),
      ((items.foldl (fun gs it => addToGroup gs (get_category_path it) it) gs).map
          (fun pg => pg.2.length)).sum =
        ((gs.map (fun pg => pg.2.length)).sum) + items.length := by
  intro items
  induction items with
  | nil => intro gs; simp
  | cons it rest ih =>
      intro gs
      simp only [List.foldl_cons, List.length_cons]
      rw [ih, addToGroup_total]
      omega

/-- The groups of a batch partition it: group sizes sum to the batch size. -/
theorem groupByPath_total (items : List Item) :
    ((groupByPath items).map (fun pg => pg.2.length)).sum = items.length := by
  unfold groupByPath
  rw [groupBy_fold_total]
  simp

/-! ### Lemmas about destinations and schemas -/

/-- The destination area is determined by the archetype: `weapons/` for
weapons, `equipment/` for equipment. -/
theorem path_area (it : Item) :
    (get_category_path it).area =
      (match it.archetype with
        | Archetype.weapon => "weapons"
        | Archetype.equipment => "equipment") := by
  obtain ⟨n, a, attrs⟩ := it
  cases a <;> rfl

/-- Two items routed to the same destination file share an archetype. -/
theorem arch_of_path (it1 it2 : Item)
    (h : get_category_path it1 = get_category_path it2) :
    it1.archetype = it2.archetype := by
  obtain ⟨n1, a1, t1⟩ := it1
  obtain ⟨n2, a2, t2⟩ := it2
  cases a1 <;> cases a2
  · rfl
  · have ha : ("weapons" : String) = "equipment" := congrArg OutPath.area h
    exact absurd ha (by decide)
  · have ha : ("equipment" : String) = "weapons" := congrArg OutPath.area h
    exact absurd ha (by decide)
  · rfl

/-- The schema picked from a group's first item applies to every item of the
group: groups are archetype-homogeneous. -/
theorem fieldsOfGroup_eq (items : List Item) (pg : OutPath × List Item)
    (hpg : pg ∈ groupByPath items) (it : Item) (hit : it ∈ pg.2) :
    fieldsOfGroup pg.2 = fieldsFor it.archetype := by
  obtain ⟨hne, hall⟩ := groupByPath_inv items pg hpg
  cases hg : pg.2 with
  | nil => rw [hg] at hit; cases hit
  | cons hd tl =>
      have hh : get_category_path hd = pg.1 := (hall hd (by rw [hg]; simp)).2
      have hi : get_category_path it = pg.1 := (hall it hit).2
      have harch : hd.archetype = it.archetype :=
        arch_of_path hd it (by rw [hh, hi])
      show fieldsFor hd.archetype = fieldsFor it.archetype
      rw [harch]

/-! ### Lemmas about the CSV writer -/

/-- A row dictionary whose keys all lie in the schema is written
successfully, as the schema-ordered projection with `""` defaults. -/
theorem writerow_ok (fields : List String) (it : Item)
    (h : ∀ kv ∈ it.to_dict, kv.1 ∈ fields) :
    writerow fields it.to_dict = .ok (rowOf fields it) := by
  unfold writerow rowOf
  rw [if_pos]
  exact List.all_eq_true.mpr (fun kv hkv => List.elem_iff.mpr (h kv hkv))

/-- A successful `writerow` output is the schema-ordered projection. -/
theorem writerow_ok_inv (fields : List String) (d : List (String × String))
    (row : List String) (h : writerow fields d = .ok row) :
    row = fields.map (fun f => (d.lookup f).getD "") := by
  unfold writerow at h
  split at h
  · exact (Except.ok.inj h).symm
  · exact Except.noConfusion h

/-- When every item's keys fit the schema, the row loop writes one
projected row per item. -/
theorem writeRows_ok (fields : List String) :
    ∀ g : List Item, (∀ it ∈ g, ∀ kv ∈ it.to_dict, kv.1 ∈ fields) →
      writeRows fields g = .ok (g.map (rowOf fields)) := by
  intro g
  induction g with
  | nil => intro _; rfl
  | cons it rest ih =>
      intro h
      simp only [writeRows]
      rw [writerow_ok fields it (fun kv hkv => h it (by simp) kv hkv),
        ih (fun x hx kv hkv => h x (by simp [hx]) kv hkv)]
      rfl

/-- Any successful row-loop output has one row per item, each of the
schema's width. -/
theorem writeRows_shape (fields : List String) :
    ∀ (g : List Item) (rows : List (List String)),
      writeRows fields g = .ok rows →
      rows.length = g.length ∧ ∀ row ∈ rows, row.length = fields.length := by
  intro g
  induction g with
  | nil =>
      intro rows h
      have hrows : ([] : List (List String)) = rows := Except.ok.inj h
      subst hrows
      simp
  | cons it rest ih =>
      intro rows h
      simp only [writeRows] at h
      cases hw : writerow fields it.to_dict with
      | error e => rw [hw] at h; exact Except.noConfusion h
      | ok row =>
          rw [hw] at h
          cases hr : writeRows fields rest with
          | error e => rw [hr] at h; exact Except.noConfusion h
          | ok rows' =>
              rw [hr] at h
              have hrows : row :: rows' = rows := Except.ok.inj h
              subst hrows
              obtain ⟨h1, h2⟩ := ih rows' hr
              refine ⟨by simp [h1], ?_⟩
              intro r hr2
              rcases List.mem_cons.mp hr2 with h3 | h3
              · subst h3
                rw [writerow_ok_inv fields it.to_dict r hw]
                simp
              · exact h2 r h3

/-- When every group's items fit that group's schema, the export writes,
for each group in order, a file of header plus projected rows. -/
theorem exportGroups_ok :
    ∀ groups : List (OutPath × List Item),
      (∀ pg ∈ groups, ∀ it ∈ pg.2, ∀ kv ∈ it.to_dict, kv.1 ∈ fieldsOfGroup pg.2) →
      exportGroups groups = .ok (groups.map (fun pg =>
        (pg.1, fieldsOfGroup pg.2 :: pg.2.map (rowOf (fieldsOfGroup pg.2))))) := by
  intro groups
  induction groups with
  | nil => intro _; rfl
  | cons qg rest ih =>
      intro h
      obtain ⟨p, g⟩ := qg
      have hw : writeGroup g =
          .ok (fieldsOfGroup g :: g.map (rowOf (fieldsOfGroup g))) := by
        unfold writeGroup
        rw [writeRows_ok (fieldsOfGroup g) g
          (fun it hit kv hkv => h (p, g) (by simp) it hit kv hkv)]
      simp only [exportGroups]
      rw [hw, ih (fun q hq => h q (by simp [hq]))]
      rfl

/-- Every file of a successful export came from some group, whose content
it carries. -/
theorem exportGroups_ok_mem :
    ∀ (groups : List (OutPath × List Item))
      (files : List (OutPath × List (List String))),
      exportGroups groups = .ok files →
      ∀ pc ∈ files, ∃ g, (pc.1, g) ∈ groups ∧ writeGroup g = .ok pc.2 := by
  intro groups
  induction groups with
  | nil =>
      intro files h pc hpc
      have hfiles : ([] : List (OutPath × List (List String))) = files :=
        Except.ok.inj h
      subst hfiles
      cases hpc
  | cons qg rest ih =>
      intro files h pc hpc
      obtain ⟨q, g⟩ := qg
      simp only [exportGroups] at h
      cases hw : writeGroup g with
      | error e => rw [hw] at h; exact Except.noConfusion h
      | ok content =>
          rw [hw] at h
          cases hr : exportGroups rest with
          | error e => rw [hr] at h; exact Except.noConfusion h
          | ok files' =>
              rw [hr] at h
              have hfiles : (q, content) :: files' = files := Except.ok.inj h
              subst hfiles
              rcases List.mem_cons.mp hpc with h1 | h1
              · subst h1
                exact ⟨g, by simp, hw⟩
              · obtain ⟨g', hm, hwg⟩ := ih files' hr pc h1
                exact ⟨g', by simp [hm], hwg⟩

/-- A successfully written file is a header (its group's schema) followed by
the group's rows. -/
theorem writeGroup_ok_shape (g : List Item) (c : List (List String))
    (h : writeGroup g = .ok c) :
    ∃ rows, writeRows (fieldsOfGroup g) g = .ok rows ∧
      c = fieldsOfGroup g :: rows := by
  unfold writeGroup at h
  cases hr : writeRows (fieldsOfGroup g) g with
  | error e => rw [hr] at h; exact Except.noConfusion h
  | ok rows =>
      rw [hr] at h
      exact ⟨rows, rfl, (Except.ok.inj h).symm⟩

/-- Keys of `to_dict` stay within the archetype's schema when the
attributes' keys do (`"Name"` heads both field lists). -/
theorem to_dict_keys (it : Item)
    (h : ∀ kv ∈ it.attributes, kv.1 ∈ fieldsFor it.archetype) :
    ∀ kv ∈ it.to_dict, kv.1 ∈ fieldsFor it.archetype := by
  obtain ⟨n, a, attrs⟩ := it
  intro kv hkv
  rcases List.mem_append.mp hkv with h1 | h2
  · exact h kv h1
  · simp only [List.mem_singleton] at h2
    subst h2
    show "Name" ∈ fieldsFor a
    cases a <;> decide

/-! ## Claims C4, C7, C10: export semantics -/

/-- C10: destination-file groups are homogeneous in archetype — all items
grouped into one file share an archetype, weapons resolve into the
`weapons` area and equipment into the `equipment` area, and the header
schema chosen from the group's first record applies to every record in the
group. -/
theorem C10_group_homogeneous (items : List Item) :
    ∀ pg ∈ groupByPath items, pg.2 ≠ [] ∧
      ∀ it1 ∈ pg.2, ∀ it2 ∈ pg.2,
        it1.archetype = it2.archetype ∧
        (it1.archetype = Archetype.weapon → pg.1.area = "weapons") ∧
        (it1.archetype = Archetype.equipment → pg.1.area = "equipment") ∧
        fieldsOfGroup pg.2 = fieldsFor it1.archetype := by
  intro pg hpg
  obtain ⟨hne, hall⟩ := groupByPath_inv items pg hpg
  refine ⟨hne, ?_⟩
  intro it1 h1 it2 h2
  have hp1 : get_category_path it1 = pg.1 := (hall it1 h1).2
  have hp2 : get_category_path it2 = pg.1 := (hall it2 h2).2
  refine ⟨arch_of_path it1 it2 (by rw [hp1, hp2]), ?_, ?_,
    fieldsOfGroup_eq items pg hpg it1 h1⟩
  · intro hw
    rw [← hp1, path_area, hw]
  · intro he
    rw [← hp1, path_area, he]

/-- C10 (witness): a batch with two 2H weapons and one head-slot equipment
piece — the weapons land in one nonempty group sharing the weapon
archetype. -/
theorem C10_group_homogeneous_witness :
    ([⟨"A", Archetype.weapon, [("Type", "2H Blunt")]⟩,
      ⟨"B", Archetype.weapon, [("Type", "Giant 2H Blunt")]⟩] : List Item) ≠ [] ∧
    (⟨"A", Archetype.weapon, [("Type", "2H Blunt")]⟩ : Item).archetype =
      (⟨"B", Archetype.weapon, [("Type", "Giant 2H Blunt")]⟩ : Item).archetype :=
  ⟨(C10_group_homogeneous
      [⟨"A", Archetype.weapon, [("Type", "2H Blunt")]⟩,
       ⟨"C", Archetype.equipment, [("Slot", "Head")]⟩,
       ⟨"B", Archetype.weapon, [("Type", "Giant 2H Blunt")]⟩]
      (⟨"weapons", "2H_Weapons.csv"⟩,
       [⟨"A", Archetype.weapon, [("Type", "2H Blunt")]⟩,
        ⟨"B", Archetype.weapon, [("Type", "Giant 2H Blunt")]⟩])
      (by decide)).1,
   ((C10_group_homogeneous
      [⟨"A", Archetype.weapon, [("Type", "2H Blunt")]⟩,
       ⟨"C", Archetype.equipment, [("Slot", "Head")]⟩,
       ⟨"B", Archetype.weapon, [("Type", "Giant 2H Blunt")]⟩]
      (⟨"weapons", "2H_Weapons.csv"⟩,
       [⟨"A", Archetype.weapon, [("Type", "2H Blunt")]⟩,
        ⟨"B", Archetype.weapon, [("Type", "Giant 2H Blunt")]⟩])
      (by decide)).2
      ⟨"A", Archetype.weapon, [("Type", "2H Blunt")]⟩ (by decide)
      ⟨"B", Archetype.weapon, [("Type", "Giant 2H Blunt")]⟩ (by decide)).1⟩

/-- C4 (counterexample): `csv.DictWriter` is constructed with the default
`extrasaction='raise'`, so a classified record carrying an attribute key
outside its schema (here a weapon with a `Slot` attribute — `Slot` is not
in wiki_scraper's `Weapon.FIELDS`) makes `writerow` raise `ValueError` and
aborts the batch write: no file receives one row per routed record and the
written data rows cannot total the batch size of 1. -/
theorem C4_counterexample :
    determine_item_type [("Type", "1H Slashing"), ("Slot", "Primary")] =
      "weapon" ∧
    "Slot" ∉ weaponFields ∧
    export_items [⟨"Night Blade", Archetype.weapon,
      [("Type", "1H Slashing"), ("Slot", "Primary")]⟩] = .error () ∧
    ∀ files, export_items [⟨"Night Blade", Archetype.weapon,
      [("Type", "1H Slashing"), ("Slot", "Primary")]⟩] ≠ .ok files := by
  refine ⟨by decide, by decide, rfl, ?_⟩
  intro files h
  exact Except.noConfusion ((rfl : export_items [⟨"Night Blade",
    Archetype.weapon, [("Type", "1H Slashing"), ("Slot", "Primary")]⟩] =
      .error ()).symm.trans h)

/-- C4 (amended): for every batch whose records carry only attribute keys
of their archetype's schema, the export succeeds and writes exactly one
file per observed destination group, each a single header row followed by
one projected row per routed record; data rows across files total the
batch size; a schema field missing from a record renders as `""`; written
paths get content independent of the previous file store (full rewrite)
and unwritten paths (zero-record buckets) are untouched. -/
theorem C4_batch_export (items : List Item)
    (H : ∀ it ∈ items, ∀ kv ∈ it.attributes, kv.1 ∈ fieldsFor it.archetype) :
    ∃ files, export_items items = .ok files ∧
      files = (groupByPath items).map (fun pg =>
        (pg.1, fieldsOfGroup pg.2 :: pg.2.map (rowOf (fieldsOfGroup pg.2)))) ∧
      (∀ pc ∈ files, ∃ g, (pc.1, g) ∈ groupByPath items ∧ g ≠ [] ∧
        pc.2 = fieldsOfGroup g :: g.map (rowOf (fieldsOfGroup g))) ∧
      (files.map (fun pc => pc.2.length - 1)).sum = items.length ∧
      (∀ (fields : List String) (it : Item) (i : Nat) (f : String),
        fields[i]? = some f → it.to_dict.lookup f = none →
        (rowOf fields it)[i]? = some "") ∧
      (∀ store : OutPath → Option (List (List String)), ∃ res,
        runBatchExport store items = .ok res ∧
        (∀ p c, lookupWritten files p = some c → res p = some c) ∧
        (∀ p, lookupWritten files p = none → res p = store p)) := by
  have Hg : ∀ pg ∈ groupByPath items, ∀ it ∈ pg.2,
      ∀ kv ∈ it.to_dict, kv.1 ∈ fieldsOfGroup pg.2 := by
    intro pg hpg it hit kv hkv
    rw [fieldsOfGroup_eq items pg hpg it hit]
    exact to_dict_keys it (H it ((groupByPath_inv items pg hpg).2 it hit).1) kv hkv
  have hexp : export_items items = .ok ((groupByPath items).map (fun pg =>
      (pg.1, fieldsOfGroup pg.2 :: pg.2.map (rowOf (fieldsOfGroup pg.2))))) :=
    exportGroups_ok (groupByPath items) Hg
  refine ⟨_, hexp, rfl, ?_, ?_, ?_, ?_⟩
  · intro pc hpc
    obtain ⟨pg, hpg, hpce⟩ := List.mem_map.mp hpc
    refine ⟨pg.2, ?_, (groupByPath_inv items pg hpg).1, ?_⟩
    · have : (pc.1, pg.2) = pg := by
        rw [← hpce]
      rw [this]
      exact hpg
    · rw [← hpce]
  · rw [List.map_map]
    have hcong : (groupByPath items).map
        ((fun pc : OutPath × List (List String) => pc.2.length - 1) ∘
          (fun pg => (pg.1, fieldsOfGroup pg.2 ::
            pg.2.map (rowOf (fieldsOfGroup pg.2))))) =
        (groupByPath items).map (fun pg => pg.2.length) := by
      apply List.map_eq_map_iff.mpr
      intro pg _
      simp
    rw [hcong, groupByPath_total]
  · intro fields it i f hf hnone
    rw [rowOf, List.getElem?_map, hf]
    simp [hnone]
  · intro store
    refine ⟨fun p =>
      match lookupWritten ((groupByPath items).map (fun pg =>
        (pg.1, fieldsOfGroup pg.2 :: pg.2.map (rowOf (fieldsOfGroup pg.2))))) p with
      | some c => some c
      | none => store p, ?_, ?_, ?_⟩
    · unfold runBatchExport
      rw [hexp]
    · intro p c hc
      simp only [hc]
    · intro p hnone
      simp only [hnone]

/-- C4 (witness): a two-record batch (one weapon, one slotless equipment
piece) within schema keys — the export succeeds with the stated shape. -/
theorem C4_batch_export_witness :
    (∀ it ∈ ([⟨"A", Archetype.weapon, [("Type", "1H Slashing"), ("Damage", "7")]⟩,
        ⟨"B", Archetype.equipment, [("AC", "5")]⟩] : List Item),
      ∀ kv ∈ it.attributes, kv.1 ∈ fieldsFor it.archetype) ∧
    (∃ files,
      export_items [⟨"A", Archetype.weapon, [("Type", "1H Slashing"), ("Damage", "7")]⟩,
        ⟨"B", Archetype.equipment, [("AC", "5")]⟩] = .ok files ∧
      files = (groupByPath [⟨"A", Archetype.weapon, [("Type", "1H Slashing"), ("Damage", "7")]⟩,
        ⟨"B", Archetype.equipment, [("AC", "5")]⟩]).map (fun pg =>
        (pg.1, fieldsOfGroup pg.2 :: pg.2.map (rowOf (fieldsOfGroup pg.2)))) ∧
      (∀ pc ∈ files, ∃ g, (pc.1, g) ∈ groupByPath
          [⟨"A", Archetype.weapon, [("Type", "1H Slashing"), ("Damage", "7")]⟩,
           ⟨"B", Archetype.equipment, [("AC", "5")]⟩] ∧ g ≠ [] ∧
        pc.2 = fieldsOfGroup g :: g.map (rowOf (fieldsOfGroup g))) ∧
      (files.map (fun pc => pc.2.length - 1)).sum = 2 ∧
      (∀ (fields : List String) (it : Item) (i : Nat) (f : String),
        fields[i]? = some f → it.to_dict.lookup f = none →
        (rowOf fields it)[i]? = some "") ∧
      (∀ store : OutPath → Option (List (List String)), ∃ res,
        runBatchExport store [⟨"A", Archetype.weapon, [("Type", "1H Slashing"), ("Damage", "7")]⟩,
          ⟨"B", Archetype.equipment, [("AC", "5")]⟩] = .ok res ∧
        (∀ p c, lookupWritten files p = some c → res p = some c) ∧
        (∀ p, lookupWritten files p = none → res p = store p))) :=
  ⟨by decide,
   C4_batch_export
     [⟨"A", Archetype.weapon, [("Type", "1H Slashing"), ("Damage", "7")]⟩,
      ⟨"B", Archetype.equipment, [("AC", "5")]⟩] (by decide)⟩

/-- C7 (counterexample): the `FIELDS` lists of wiki_scraper.py (used by the
batch writer) and of models.py (used through `item.__class__.FIELDS` by the
append primitive `CSVExporter.export_item`) differ for both archetypes —
e.g. wiki_scraper's weapon schema has `Skill` and no `Stats`/`Slot`, while
models.py's has `Stats` and `Slot` and no `Skill` — so the two writers'
schemas for the same archetype are not equal. -/
theorem C7_counterexample :
    fieldsFor Archetype.weapon ≠ modelsFields Archetype.weapon ∧
    fieldsFor Archetype.equipment ≠ modelsFields Archetype.equipment := by
  decide

/-- C7 (amended): within one export run each writer is schema-stable — every
file written by the batch writer is a header equal to one archetype's
wiki_scraper `FIELDS` followed by rows of exactly that schema's width, and
the append primitive always appends the projection of its item under the
models.py `FIELDS` of the item's archetype (writing that schema as header
into an empty file) — but the batch writer's schema and the append
primitive's schema for the same archetype are different field lists. -/
theorem C7_schema_stability :
    (∀ (items : List Item) (files : List (OutPath × List (List String))),
        export_items items = .ok files →
        ∀ pc ∈ files, ∃ a, pc.2.head? = some (fieldsFor a) ∧
          ∀ row ∈ pc.2.tail, row.length = (fieldsFor a).length) ∧
    (∀ (file : List (List String)) (it : Item) (out : List (List String)),
        export_item file it = .ok out →
        out.getLast? = some (rowOf (modelsFields it.archetype) it) ∧
        (file = [] → out.head? = some (modelsFields it.archetype))) ∧
    fieldsFor Archetype.weapon ≠ modelsFields Archetype.weapon ∧
    fieldsFor Archetype.equipment ≠ modelsFields Archetype.equipment := by
  refine ⟨?_, ?_, by decide, by decide⟩
  · intro items files hexp pc hpc
    obtain ⟨g, hg, hwg⟩ := exportGroups_ok_mem (groupByPath items) files hexp pc hpc
    obtain ⟨rows, hrows, hc⟩ := writeGroup_ok_shape g pc.2 hwg
    obtain ⟨hlen, hwidths⟩ := writeRows_shape (fieldsOfGroup g) g rows hrows
    cases g with
    | nil =>
        refine ⟨Archetype.equipment, ?_, ?_⟩
        · rw [hc]; rfl
        · rw [hc]
          intro row hrow
          exact hwidths row hrow
    | cons hd tl =>
        refine ⟨hd.archetype, ?_, ?_⟩
        · rw [hc]; rfl
        · rw [hc]
          intro row hrow
          exact hwidths row hrow
  · intro file it out h
    unfold export_item at h
    cases hw : writerow (modelsFields it.archetype) it.to_dict with
    | error e => rw [hw] at h; exact Except.noConfusion h
    | ok row =>
        rw [hw] at h
        have hout : (if file.isEmpty then [modelsFields it.archetype]
            else file) ++ [row] = out := Except.ok.inj h
        subst hout
        constructor
        · rw [List.getLast?_concat, writerow_ok_inv _ _ _ hw]
          rfl
        · intro hfe
          subst hfe
          rfl

/-- C7 (witness): a concrete equipment item — the batch writer produces the
wiki_scraper equipment schema as header with matching row widths, and the
append primitive on an empty file writes the models.py schema and the
projected row. -/
theorem C7_schema_stability_witness :
    (∃ a, ((⟨"equipment", "misc.csv"⟩,
        [equipmentFields, rowOf equipmentFields
          ⟨"A", Archetype.equipment, [("AC", "5")]⟩]) :
          OutPath × List (List String)).2.head? = some (fieldsFor a) ∧
      ∀ row ∈ ((⟨"equipment", "misc.csv"⟩,
        [equipmentFields, rowOf equipmentFields
          ⟨"A", Archetype.equipment, [("AC", "5")]⟩]) :
          OutPath × List (List String)).2.tail,
        row.length = (fieldsFor a).length) ∧
    ([modelsFields Archetype.equipment,
        rowOf (modelsFields Archetype.equipment)
          ⟨"A", Archetype.equipment, [("AC", "5")]⟩] :
        List (List String)).getLast? =
      some (rowOf (modelsFields
        (⟨"A", Archetype.equipment, [("AC", "5")]⟩ : Item).archetype)
        ⟨"A", Archetype.equipment, [("AC", "5")]⟩) :=
  ⟨C7_schema_stability.1 [⟨"A", Archetype.equipment, [("AC", "5")]⟩]
      [(⟨"equipment", "misc.csv"⟩,
        [equipmentFields, rowOf equipmentFields
          ⟨"A", Archetype.equipment, [("AC", "5")]⟩])] rfl
      (⟨"equipment", "misc.csv"⟩,
        [equipmentFields, rowOf equipmentFields
          ⟨"A", Archetype.equipment, [("AC", "5")]⟩]) (by simp),
   (C7_schema_stability.2.1 [] ⟨"A", Archetype.equipment, [("AC", "5")]⟩
      [modelsFields Archetype.equipment,
        rowOf (modelsFields Archetype.equipment)
          ⟨"A", Archetype.equipment, [("AC", "5")]⟩] rfl).1⟩

/-! ## Detail-page scraping (`ItemScraper.scrape_item_page`, lines 178-197,
and the per-URL loop of `scrape_category`, lines 296-308)

A detail fetch either raises a transport error (`err` — `session.get` or
parsing raised) or yields a page abstracted to its parsed infobox mapping
(`page none`: the page has no infobox container, `_parse_item_data`
returned `None`).  `scrape_item_page` wraps its whole body in
`try/except Exception`, printing and returning `None` on any error, so it
never propagates an exception to its caller. -/

inductive DetailResp where
  | err
  | page (item_data : Option (List (String × String)))

/-- Name derivation of line 188: `url.split("/")[-1].replace("_", " ")`. -/
def mkName (url : String) : String :=
  replaceChar '_' ' ' ⟨(splitOnChar '/' url.data).getLastD []⟩

/-- `scrape_item_page`: `None` on transport error (caught internally), on a
page without infobox, and on an empty infobox mapping (`if not item_data`);
otherwise the record classified from the URL-derived name and the parsed
attributes. -/
def scrape_item_page (fetch : String → DetailResp) (url : String) :
    Option Item :=
  match fetch url with
  | .err => none
  | .page none => none
  | .page (some item_data) =>
      if item_data.isEmpty then none
      else some (classify (mkName url) item_data)

/-- The per-URL loop of `scrape_category` (lines 296-308): skip category
URLs, keep items with nonempty attributes, drop `None` results.  The loop
body's `except` clause appends the URL to `failed_items`, but
`scrape_item_page` catches every exception itself and returns `None`, and
no other statement of the body can raise, so the append is unreachable and
the failure accumulator never grows. -/
def processUrls (fetch : String → DetailResp) (urls : List String) :
    List Item × List String :=
  urls.foldl
    (fun acc url =>
      if strContains url "Category:" then acc
      else
        match scrape_item_page fetch url with
        | some item =>
            if item.attributes.isEmpty then acc else (acc.1 ++ [item], acc.2)
        | none => acc)
    ([], [])

/-! ## Claims C2 and C9: failure reporting and record names -/

/-- C2 (code bug): a transport error on a detail page is caught inside
`scrape_item_page`, which returns `None`; the caller then skips the URL
exactly as it skips a non-item page, so the URL is never appended to
`failed_items` and the failure is silently dropped from the report — the
failure list stays empty even though every fetch of the batch errored. -/
theorem C2_failure_dropped :
    scrape_item_page (fun _ => DetailResp.err) "https://w/Item_X" = none ∧
    (processUrls (fun _ => DetailResp.err) ["https://w/Item_X"]).2 = [] ∧
    (processUrls (fun _ => DetailResp.err) ["https://w/Item_X"]).1 = [] :=
  ⟨rfl, rfl, rfl⟩

/-- C9 (counterexample): the paginator accepts the relative link `/` (no
namespace marker, site-relative), producing the detail URL `base ++ "/"`;
`scrape_item_page` then derives the name from the empty last URL segment,
so the pipeline constructs and hands to the exporter a record whose name is
the empty string. -/
theorem C9_counterexample :
    extract_category_items "https://wiki.project1999.com"
        (fun _ => ⟨200, some [⟨"/", "Main Page"⟩]⟩) 2 =
      some ["https://wiki.project1999.com/"] ∧
    (processUrls (fun _ => DetailResp.page (some [("Type", "1H Slashing")]))
        ["https://wiki.project1999.com/"]).1.map (fun it => it.name) =
      [""] := by
  decide

/-- C9 (amended): every record constructed from a detail page whose URL has
a non-empty final `/`-segment has a non-empty name (the paginator can
produce URLs with an empty final segment, e.g. from the link `/`, and those
yield an empty name). -/
theorem C9_nonempty_name (fetch : String → DetailResp) (url : String)
    (it : Item) (h : scrape_item_page fetch url = some it)
    (hseg : (splitOnChar '/' url.data).getLastD [] ≠ []) :
    it.name ≠ "" := by
  cases hf : fetch url with
  | err =>
      unfold scrape_item_page at h
      rw [hf] at h
      exact Option.noConfusion h
  | page d =>
      cases d with
      | none =>
          unfold scrape_item_page at h
          rw [hf] at h
          exact Option.noConfusion h
      | some item_data =>
          unfold scrape_item_page at h
          rw [hf] at h
          have h' : (if item_data.isEmpty = true then none
              else some (classify (mkName url) item_data)) = some it := h
          by_cases he : item_data.isEmpty
          · rw [if_pos he] at h'
            exact Option.noConfusion h'
          · rw [if_neg he] at h'
            have hit : classify (mkName url) item_data = it := Option.some.inj h'
            have hname : it.name = mkName url := by rw [← hit]; rfl
            rw [hname]
            intro hcon
            apply hseg
            have hdata := congrArg String.data hcon
            have hmap : ((splitOnChar '/' url.data).getLastD []).map
                (fun c => if c = '_' then ' ' else c) = [] := hdata
            exact List.map_eq_nil_iff.mp hmap

/-- C9 (witness): the URL `https://w/Helm` has final segment `Helm`, and
the record built from it has the non-empty name `"Helm"`. -/
theorem C9_nonempty_name_witness :
    (splitOnChar '/' "https://w/Helm".data).getLastD [] ≠ [] ∧
    (⟨"Helm", Archetype.equipment, [("AC", "5")]⟩ : Item).name ≠ "" :=
  ⟨by decide,
   C9_nonempty_name (fun _ => DetailResp.page (some [("AC", "5")]))
     "https://w/Helm" ⟨"Helm", Archetype.equipment, [("AC", "5")]⟩
     (by decide) (by decide)⟩

end WikiScraper
